import Mathlib

/-!
Shallow embedding of the COP5522-HW1 matrix-vector multiplication benchmark.

The repository contains three harness families:
  * src/Mv.c (and its C++ twin src/hw1/Mv.cpp): the baseline `MatVecMult`
    kernel (k-outer loop over a memset-zeroed C), a `CreateMatrix` /
    `InitMatrix` pair, and a main that times one multiplication.
  * src/proj1/: four single-kernel programs over std::vector<double>:
    Mv.cpp (baseline i-k loop), interchange.cpp (k-i loop),
    proj1/unroll.cpp (inner loop unrolled by 8), avx2.cpp / optimized.cpp
    (AVX2 4-lane fused-multiply-add with horizontal reduction).
  * src/hw1/hw1.cpp: one binary with a selector dispatching between an
    8-lane AVX2 kernel, a 4-unrolled kernel, and the interchanged kernel
    over std::vector<float>.

Machine floating-point values are embedded as exact rationals (ℚ); the
claims under study are about accumulation structure, loop coverage, control
flow and output plumbing, all of which are faithfully visible at that level.
Flat C arrays become total functions ℕ → ℚ updated with Function.update;
the element writes of every loop are modelled one by one as folds over
List.range, so each Lean definition mirrors the loop structure of its
source function.  Loops whose counter advances by a stride use an explicit
fuel argument (always called with fuel = n, an upper bound on the iteration
count) so that every definition reduces by kernel computation.
-/

/-- Flat result vector of length n read off a state function, i.e. the
contents of the C array c[0..n). -/
def resultVec (n : ℕ) (c : ℕ → ℚ) : List ℚ := (List.range n).map c

/-- The mathematical inner product of row i of the flat row-major matrix A
with the vector b: sum over k in [0,n) of A[i*n+k] * b[k]. -/
def rowSum (n : ℕ) (A b : ℕ → ℚ) (i : ℕ) : ℚ :=
  ∑ k in Finset.range n, A (i * n + k) * b k

/-- Writes c[i] = 0 for i in [0,n): models both memset(C,0,n*sizeof) and the
explicit zeroing loops / std::fill calls of the interchanged kernels
(an all-zero byte pattern is the floating zero). -/
def zeroFill (n : ℕ) (c : ℕ → ℚ) : ℕ → ℚ :=
  (List.range n).foldl (fun c i => Function.update c i 0) c

/-- Writes b[i] = f i for i in [0,n): models the vector-generation loops of
the proj1 and hw1 mains. -/
def initVec (n : ℕ) (f : ℕ → ℚ) (b : ℕ → ℚ) : ℕ → ℚ :=
  (List.range n).foldl (fun b i => Function.update b i (f i)) b

/-- InitMatrix from src/Mv.c (and src/hw1/Mv.cpp): for i < Rows, j < Cols,
writes A[i*Cols+j] = 1/(i+j+2).  The A-generation loops of the proj1 and
hw1 mains perform exactly the same writes with Rows = Cols = n. -/
def InitMatrix (Rows Cols : ℕ) (A : ℕ → ℚ) : ℕ → ℚ :=
  (List.range Rows).foldl (fun A i =>
    (List.range Cols).foldl
      (fun A j => Function.update A (i * Cols + j) (1 / ((i : ℚ) + (j : ℚ) + 2))) A) A

/-- The scalar remainder loop shared verbatim by the unrolled and vectorized
kernels: for (; k < n; ++k) sum += A[i*n+k] * b[k].  The fuel argument is
always called with at least n - k, which bounds the iteration count. -/
def tailGo (n : ℕ) (A b : ℕ → ℚ) (i : ℕ) : ℕ → ℕ → ℚ → ℚ
  | 0, _, sum => sum
  | fuel + 1, k, sum =>
    if k < n then tailGo n A b i fuel (k + 1) (sum + A (i * n + k) * b k) else sum

namespace proj1

/-- Baseline kernel Mv_mult from src/proj1/Mv.cpp: for each row i,
c[i] = 0.0 then c[i] += A[i*n+k]*b[k] for k in [0,n). -/
def Mv_mult (n : ℕ) (A b : ℕ → ℚ) (c : ℕ → ℚ) : ℕ → ℚ :=
  (List.range n).foldl (fun c i =>
    (List.range n).foldl
      (fun c k => Function.update c i (c i + A (i * n + k) * b k))
      (Function.update c i 0)) c

/-- Interchanged kernel from src/proj1/interchange.cpp: zero c[0..n), then
the k-outer / i-inner accumulation c[i] += A[i*n+k]*b[k]. -/
def Mv_mult_interchanged (n : ℕ) (A b : ℕ → ℚ) (c : ℕ → ℚ) : ℕ → ℚ :=
  (List.range n).foldl (fun c k =>
    (List.range n).foldl
      (fun c i => Function.update c i (c i + A (i * n + k) * b k)) c)
    (zeroFill n c)

/-- The width-8 unrolled main loop of src/proj1/proj1/unroll.cpp:
for (; k <= n - 8; k += 8) sum += t0 + t1 + ... + t7 (one grouped sum per
iteration, as in the source).  The C guard k <= n - 8 on ints is rendered
as k + 8 ≤ n.  Returns the final (k, sum). -/
def unrolledGo (n : ℕ) (A b : ℕ → ℚ) (i : ℕ) : ℕ → ℕ → ℚ → ℕ × ℚ
  | 0, k, sum => (k, sum)
  | fuel + 1, k, sum =>
    if k + 8 ≤ n then
      unrolledGo n A b i fuel (k + 8)
        (sum + (A (i * n + k) * b k + A (i * n + (k + 1)) * b (k + 1) +
                A (i * n + (k + 2)) * b (k + 2) + A (i * n + (k + 3)) * b (k + 3) +
                A (i * n + (k + 4)) * b (k + 4) + A (i * n + (k + 5)) * b (k + 5) +
                A (i * n + (k + 6)) * b (k + 6) + A (i * n + (k + 7)) * b (k + 7)))
    else (k, sum)

/-- The value Mv_mult_unrolled (src/proj1/proj1/unroll.cpp) computes for
row i: sum = 0; the width-8 main loop; then the scalar remainder loop. -/
def unrolledRow (n : ℕ) (A b : ℕ → ℚ) (i : ℕ) : ℚ :=
  let p := unrolledGo n A b i n 0 0
  tailGo n A b i (n - p.1) p.1 p.2

/-- Unrolled kernel Mv_mult_unrolled from src/proj1/proj1/unroll.cpp:
per row, compute the unrolled sum, then c[i] = sum (a plain overwrite). -/
def Mv_mult_unrolled (n : ℕ) (A b : ℕ → ℚ) (c : ℕ → ℚ) : ℕ → ℚ :=
  (List.range n).foldl (fun c i => Function.update c i (unrolledRow n A b i)) c

/-- The AVX2 main loop of src/proj1/avx2.cpp (and the identical
src/proj1/optimized.cpp): four lane accumulators (the __m256d register),
each fused-multiply-add step doing lane j += A[i*n+k+j]*b[k+j] exactly.
The C guard k <= n - 4 on ints is rendered as k + 4 ≤ n.
Returns the final (k, (s0, s1, s2, s3)). -/
def avxGo (n : ℕ) (A b : ℕ → ℚ) (i : ℕ) : ℕ → ℕ → ℚ → ℚ → ℚ → ℚ → ℕ × (ℚ × ℚ × ℚ × ℚ)
  | 0, k, s0, s1, s2, s3 => (k, (s0, s1, s2, s3))
  | fuel + 1, k, s0, s1, s2, s3 =>
    if k + 4 ≤ n then
      avxGo n A b i fuel (k + 4)
        (s0 + A (i * n + k) * b k) (s1 + A (i * n + (k + 1)) * b (k + 1))
        (s2 + A (i * n + (k + 2)) * b (k + 2)) (s3 + A (i * n + (k + 3)) * b (k + 3))
    else (k, (s0, s1, s2, s3))

/-- The value Mv_mult_optimized (src/proj1/avx2.cpp) computes for row i:
zeroed 4-lane accumulator, the AVX2 main loop, horizontal reduction
s0 + s1 + s2 + s3 (left-associated as in the source), then the scalar
remainder loop. -/
def avxRow (n : ℕ) (A b : ℕ → ℚ) (i : ℕ) : ℚ :=
  let r := avxGo n A b i n 0 0 0 0 0
  tailGo n A b i (n - r.1) r.1 (r.2.1 + r.2.2.1 + r.2.2.2.1 + r.2.2.2.2)

/-- Vectorized kernel Mv_mult_optimized from src/proj1/avx2.cpp (identical
in src/proj1/optimized.cpp): per row, compute the vectorized sum, then
c[i] = sum (a plain overwrite). -/
def Mv_mult_optimized (n : ℕ) (A b : ℕ → ℚ) (c : ℕ → ℚ) : ℕ → ℚ :=
  (List.range n).foldl (fun c i => Function.update c i (avxRow n A b i)) c

end proj1

namespace hw1

/-- The width-4 unrolled main loop of Mv_mult_unrolled in src/hw1/hw1.cpp:
four separate sum += statements per iteration (left-associated). -/
def unrolledGo (n : ℕ) (A b : ℕ → ℚ) (i : ℕ) : ℕ → ℕ → ℚ → ℕ × ℚ
  | 0, k, sum => (k, sum)
  | fuel + 1, k, sum =>
    if k + 4 ≤ n then
      unrolledGo n A b i fuel (k + 4)
        (sum + A (i * n + k) * b k + A (i * n + (k + 1)) * b (k + 1) +
         A (i * n + (k + 2)) * b (k + 2) + A (i * n + (k + 3)) * b (k + 3))
    else (k, sum)

/-- The value Mv_mult_unrolled (src/hw1/hw1.cpp) computes for row i:
sum = 0; the width-4 main loop; then the scalar remainder loop. -/
def unrolledRow (n : ℕ) (A b : ℕ → ℚ) (i : ℕ) : ℚ :=
  let p := unrolledGo n A b i n 0 0
  tailGo n A b i (n - p.1) p.1 p.2

/-- Unrolled kernel Mv_mult_unrolled from src/hw1/hw1.cpp (width 4):
per row, compute the unrolled sum, then C[i] = sum. -/
def Mv_mult_unrolled (n : ℕ) (A b : ℕ → ℚ) (c : ℕ → ℚ) : ℕ → ℚ :=
  (List.range n).foldl (fun c i => Function.update c i (unrolledRow n A b i)) c

/-- The 8-lane AVX2 main loop of Mv_mult_avx2 in src/hw1/hw1.cpp (float
lanes, __m256): lane j += A[i*n+k+j]*b[k+j] per fused-multiply-add. -/
def avx8Go (n : ℕ) (A b : ℕ → ℚ) (i : ℕ) :
    ℕ → ℕ → ℚ → ℚ → ℚ → ℚ → ℚ → ℚ → ℚ → ℚ → ℕ × (ℚ × ℚ × ℚ × ℚ × ℚ × ℚ × ℚ × ℚ)
  | 0, k, s0, s1, s2, s3, s4, s5, s6, s7 => (k, (s0, s1, s2, s3, s4, s5, s6, s7))
  | fuel + 1, k, s0, s1, s2, s3, s4, s5, s6, s7 =>
    if k + 8 ≤ n then
      avx8Go n A b i fuel (k + 8)
        (s0 + A (i * n + k) * b k) (s1 + A (i * n + (k + 1)) * b (k + 1))
        (s2 + A (i * n + (k + 2)) * b (k + 2)) (s3 + A (i * n + (k + 3)) * b (k + 3))
        (s4 + A (i * n + (k + 4)) * b (k + 4)) (s5 + A (i * n + (k + 5)) * b (k + 5))
        (s6 + A (i * n + (k + 6)) * b (k + 6)) (s7 + A (i * n + (k + 7)) * b (k + 7))
    else (k, (s0, s1, s2, s3, s4, s5, s6, s7))

/-- The value Mv_mult_avx2 (src/hw1/hw1.cpp) computes for row i: zeroed
8-lane accumulator, the 8-lane main loop, horizontal reduction
c_sum_array[0] + ... + c_sum_array[7] (left-associated as in the source),
then the scalar remainder loop. -/
def avxRow (n : ℕ) (A b : ℕ → ℚ) (i : ℕ) : ℚ :=
  let r := avx8Go n A b i n 0 0 0 0 0 0 0 0 0
  tailGo n A b i (n - r.1) r.1
    (r.2.1 + r.2.2.1 + r.2.2.2.1 + r.2.2.2.2.1 + r.2.2.2.2.2.1 +
     r.2.2.2.2.2.2.1 + r.2.2.2.2.2.2.2.1 + r.2.2.2.2.2.2.2.2)

/-- Vectorized kernel Mv_mult_avx2 from src/hw1/hw1.cpp: per row, compute
the vectorized sum, then C[i] = sum. -/
def Mv_mult_avx2 (n : ℕ) (A b : ℕ → ℚ) (c : ℕ → ℚ) : ℕ → ℚ :=
  (List.range n).foldl (fun c i => Function.update c i (avxRow n A b i)) c

/-- Interchanged kernel Mv_mult_interchanged from src/hw1/hw1.cpp:
fill(C.begin(), C.end(), 0.0f) over the length-n vector, then the k-outer /
i-inner accumulation — the same writes as the proj1 interchanged kernel. -/
def Mv_mult_interchanged (n : ℕ) (A b : ℕ → ℚ) (c : ℕ → ℚ) : ℕ → ℚ :=
  (List.range n).foldl (fun c k =>
    (List.range n).foldl
      (fun c i => Function.update c i (c i + A (i * n + k) * b k)) c)
    (zeroFill n c)

end hw1

namespace cMv

/-- MatVecMult from src/Mv.c (identical in src/hw1/Mv.cpp):
memset(C, 0, ARows*sizeof) then the k-outer / i-inner accumulation
C[i] += A[i*ACols+k]*B[k] for k < ACols, i < ARows. -/
def MatVecMult (ARows ACols : ℕ) (A B : ℕ → ℚ) (C : ℕ → ℚ) : ℕ → ℚ :=
  (List.range ACols).foldl (fun C k =>
    (List.range ARows).foldl
      (fun C i => Function.update C i (C i + A (i * ACols + k) * B k)) C)
    (zeroFill ARows C)

end cMv

/-- The digit-run accumulation of C atoi: consume leading decimal digits,
stopping at the first non-digit. -/
def digitsVal : List Char → ℕ → ℕ
  | [], acc => acc
  | ch :: rest, acc =>
    if ch.isDigit then digitsVal rest (acc * 10 + (ch.toNat - 48)) else acc

/-- C atoi as used by every main: skip leading whitespace, an optional sign,
then a (possibly empty) digit run; a string with no leading digits parses
to 0.  (Overflow, which is undefined for atoi, is not modelled.) -/
def atoi (s : String) : ℤ :=
  match s.toList.dropWhile Char.isWhitespace with
  | '-' :: rest => -(digitsVal rest 0 : ℤ)
  | '+' :: rest => (digitsVal rest 0 : ℤ)
  | rest => (digitsVal rest 0 : ℤ)

/-- Bounds-checked array read at a C int index: the value of l[i], or none
when the access is outside the array (an out-of-bounds access). -/
def readZ (l : List ℚ) (i : ℤ) : Option ℚ :=
  if 0 ≤ i then l.get? i.toNat else none

/-- The numeric content a harness prints to standard output on a successful
run: the elapsed time with its unit, the derived throughput (none when the
program prints no throughput), and the checksum (none when the sampled
element read is out of bounds). -/
structure Report where
  timeValue : ℚ
  timeUnit : String
  gflops : Option ℚ
  checksum : Option ℚ
  deriving DecidableEq

/-- Observable outcome of one program invocation: exit status, the lines
printed to the error stream, the numeric report printed to standard output
(none when nothing numeric is printed), and whether a multiplication kernel
was invoked. -/
structure MainResult where
  exitCode : ℤ
  errOut : List String
  report : Option Report
  kernelRan : Bool
  deriving DecidableEq

namespace proj1

/-- The four proj1 programs share one main body and differ only in the
kernel linked in; this selects among them. -/
inductive Prog
  | baseline
  | interchange
  | unroll
  | avx2
  deriving DecidableEq

/-- The kernel each proj1 program invokes. -/
def runKernel : Prog → ℕ → (ℕ → ℚ) → (ℕ → ℚ) → (ℕ → ℚ) → (ℕ → ℚ)
  | .baseline => Mv_mult
  | .interchange => Mv_mult_interchanged
  | .unroll => Mv_mult_unrolled
  | .avx2 => Mv_mult_optimized

/-- main of the proj1 programs (src/proj1/Mv.cpp and the three variants):
argc must be 2; n = atoi(argv[1]); n <= 0 is rejected with an error and
exit 1; otherwise A and b are generated (b[i] = 1/(i+1)), the kernel runs
on the zero-initialized vector c, and the program prints the elapsed
seconds and the sum-of-elements checksum (and no throughput figure).
The elapsed time t is a runtime input of the model. -/
def main (prog : Prog) (args : List String) (t : ℚ) : MainResult :=
  match args with
  | [dimArg] =>
    let N : ℤ := atoi dimArg
    if N ≤ 0 then
      { exitCode := 1, errOut := ["Matrix size must be a positive integer."],
        report := none, kernelRan := false }
    else
      let n : ℕ := N.toNat
      let A := InitMatrix n n (fun _ => 0)
      let b := initVec n (fun i => 1 / ((i : ℚ) + 1)) (fun _ => 0)
      let c := runKernel prog n A b (fun _ => 0)
      { exitCode := 0, errOut := [],
        report := some { timeValue := t, timeUnit := "seconds", gflops := none,
                         checksum := some ((resultVec n c).sum) },
        kernelRan := true }
  | _ =>
    { exitCode := 1, errOut := ["Usage: prog <matrix_size_n>"],
      report := none, kernelRan := false }

end proj1

namespace hw1

/-- The lines print_usage writes to the error stream (src/hw1/hw1.cpp,
lines 22-30; quote characters around avx2 omitted). -/
def usageLines : List String :=
  ["Usage: prog [optimization_type] <matrix_size_n>",
   "  <optimization_type> is optional and defaults to avx2.",
   "Optimization types:",
   "  baseline    - Standard i-k loop implementation",
   "  avx2        - AVX2 SIMD optimization",
   "  unroll      - Loop unrolling optimization",
   "  interchange - Loop interchange (demonstrates cache effects)"]

/-- The body of main in src/hw1/hw1.cpp once opt_type and n are fixed:
generate A (1/(i+j+2)) and B (B[i] = 1/(i+2)) into zero-initialized
vectors, dispatch on opt_type — avx2, unroll, interchange, and anything
else (including "baseline") is rejected with an error plus the usage text
and exit 1 — and on success print time (microseconds), the throughput
2.0*n*n*1e-3/t, and the sampled checksum C[n/2]. -/
def run (optType : String) (N : ℤ) (t : ℚ) : MainResult :=
  let n : ℕ := N.toNat
  let A := InitMatrix n n (fun _ => 0)
  let B := initVec n (fun i => 1 / ((i : ℚ) + 2)) (fun _ => 0)
  let success (C : ℕ → ℚ) : MainResult :=
    { exitCode := 0, errOut := [],
      report := some { timeValue := t, timeUnit := "us",
                       gflops := some (2 * (N : ℚ) * (N : ℚ) * (1 / 1000) / t),
                       checksum := readZ (resultVec n C) (Int.tdiv N 2) },
      kernelRan := true }
  if optType = "avx2" then success (Mv_mult_avx2 n A B (fun _ => 0))
  else if optType = "unroll" then success (Mv_mult_unrolled n A B (fun _ => 0))
  else if optType = "interchange" then success (Mv_mult_interchanged n A B (fun _ => 0))
  else
    { exitCode := 1,
      errOut := "Error: Unknown optimization type" :: usageLines,
      report := none, kernelRan := false }

/-- main of src/hw1/hw1.cpp: with one argument the selector defaults to
avx2; with two arguments the first is the selector; any other argument
count prints the usage text and exits 1. -/
def main (args : List String) (t : ℚ) : MainResult :=
  match args with
  | [sizeArg] => run "avx2" (atoi sizeArg) t
  | [optArg, sizeArg] => run optArg (atoi sizeArg) t
  | _ => { exitCode := 1, errOut := usageLines, report := none, kernelRan := false }

end hw1

namespace cMv

/-- main of src/Mv.c (and src/hw1/Mv.cpp): argc must be 2;
N = atoi(argv[1]) with no validation of N; A, B, C are allocated
(their uninitialized contents are the parameters A0, B0, C0), A and B are
filled by InitMatrix (B via InitMatrix(B, M, 1), so B[i] = 1/(i+2)), C is
memset to zero, MatVecMult runs, and the program prints the elapsed
microseconds, the throughput 2.0*N*N*1e-3/t, and the sampled element
C[N/2] — reaching exit status 0 on every argc==2 invocation.
C for-loops with int bounds run max(N,0) times, hence the N.toNat bounds. -/
def main (args : List String) (t : ℚ) (A0 B0 C0 : ℕ → ℚ) : MainResult :=
  match args with
  | [dimArg] =>
    let N : ℤ := atoi dimArg
    let n : ℕ := N.toNat
    let A := InitMatrix n n A0
    let B := InitMatrix n 1 B0
    let C := MatVecMult n n A B (zeroFill n C0)
    { exitCode := 0, errOut := [],
      report := some { timeValue := t, timeUnit := "us",
                       gflops := some (2 * (N : ℚ) * (N : ℚ) * (1 / 1000) / t),
                       checksum := readZ (resultVec n C) (Int.tdiv N 2) },
      kernelRan := true }
  | _ =>
    { exitCode := 1, errOut := ["USAGE: Mv Matrix-Dimension"],
      report := none, kernelRan := false }

/-- Control-flow skeleton of main in src/Mv.c around allocation: each of
the three CreateMatrix calls (for A, B, C) prints a file/line diagnostic
to the error stream when its malloc fails, but main never tests the
returned pointers: execution falls through to InitMatrix, the timed
MatVecMult call and the timing printf unconditionally.  The three Booleans
say whether the respective allocation succeeded. -/
def mainAllocFlow (aOk bOk cOk : Bool) : List String × Bool × Bool :=
  let diag (ok : Bool) : List String :=
    if ok then [] else ["Matrix allocation failed in file Mv.c, line 16"]
  let stderrLines := diag aOk ++ diag bOk ++ diag cOk
  -- (multiplication attempted, timing printf reached): both unconditional
  (stderrLines, true, true)

end cMv

/-! ## Loop characterization lemmas -/

/-- The scalar remainder loop accumulates exactly the terms with index in
[k, n) when given enough fuel. -/
theorem tailGo_eq (n : ℕ) (A b : ℕ → ℚ) (i : ℕ) :
    ∀ fuel k sum, n ≤ k + fuel →
      tailGo n A b i fuel k sum = sum + ∑ j in Finset.Ico k n, A (i * n + j) * b j := by
  intro fuel
  induction fuel with
  | zero =>
    intro k sum h
    have hempty : Finset.Ico k n = ∅ := Finset.Ico_eq_empty (by omega)
    simp [tailGo, hempty]
  | succ fuel ih =>
    intro k sum h
    by_cases hk : k < n
    · rw [tailGo, if_pos hk, ih (k + 1) _ (by omega),
        Finset.sum_eq_sum_Ico_succ_bot hk]
      ring
    · have hempty : Finset.Ico k n = ∅ := Finset.Ico_eq_empty (by omega)
      rw [tailGo, if_neg hk]
      simp [hempty]

/-- The width-8 main loop followed by the remainder loop accumulates all
terms with index in [k, n). -/
theorem proj1_unrolledGo_tail_eq (n : ℕ) (A b : ℕ → ℚ) (i : ℕ) :
    ∀ fuel k sum, n ≤ k + fuel →
      tailGo n A b i (n - (proj1.unrolledGo n A b i fuel k sum).1)
          (proj1.unrolledGo n A b i fuel k sum).1
          (proj1.unrolledGo n A b i fuel k sum).2
        = sum + ∑ j in Finset.Ico k n, A (i * n + j) * b j := by
  intro fuel
  induction fuel with
  | zero =>
    intro k sum h
    simp only [proj1.unrolledGo]
    exact tailGo_eq n A b i (n - k) k sum (by omega)
  | succ fuel ih =>
    intro k sum h
    by_cases hk : k + 8 ≤ n
    · simp only [proj1.unrolledGo, if_pos hk]
      rw [ih (k + 8) _ (by omega)]
      have hsplit : ∑ j in Finset.Ico k n, A (i * n + j) * b j
          = (∑ j in Finset.Ico k (k + 8), A (i * n + j) * b j)
            + ∑ j in Finset.Ico (k + 8) n, A (i * n + j) * b j :=
        (Finset.sum_Ico_consecutive _ (by omega) hk).symm
      have h8 : ∑ j in Finset.Ico k (k + 8), A (i * n + j) * b j
          = A (i * n + k) * b k + A (i * n + (k + 1)) * b (k + 1) +
            A (i * n + (k + 2)) * b (k + 2) + A (i * n + (k + 3)) * b (k + 3) +
            A (i * n + (k + 4)) * b (k + 4) + A (i * n + (k + 5)) * b (k + 5) +
            A (i * n + (k + 6)) * b (k + 6) + A (i * n + (k + 7)) * b (k + 7) := by
        rw [Finset.sum_Ico_eq_sum_range]
        norm_num [Finset.sum_range_succ]
      rw [hsplit, h8]
      ring
    · simp only [proj1.unrolledGo, if_neg hk]
      exact tailGo_eq n A b i (n - k) k sum (by omega)

/-- The width-4 main loop of the hw1 unrolled kernel followed by the
remainder loop accumulates all terms with index in [k, n). -/
theorem hw1_unrolledGo_tail_eq (n : ℕ) (A b : ℕ → ℚ) (i : ℕ) :
    ∀ fuel k sum, n ≤ k + fuel →
      tailGo n A b i (n - (hw1.unrolledGo n A b i fuel k sum).1)
          (hw1.unrolledGo n A b i fuel k sum).1
          (hw1.unrolledGo n A b i fuel k sum).2
        = sum + ∑ j in Finset.Ico k n, A (i * n + j) * b j := by
  intro fuel
  induction fuel with
  | zero =>
    intro k sum h
    simp only [hw1.unrolledGo]
    exact tailGo_eq n A b i (n - k) k sum (by omega)
  | succ fuel ih =>
    intro k sum h
    by_cases hk : k + 4 ≤ n
    · simp only [hw1.unrolledGo, if_pos hk]
      rw [ih (k + 4) _ (by omega)]
      have hsplit : ∑ j in Finset.Ico k n, A (i * n + j) * b j
          = (∑ j in Finset.Ico k (k + 4), A (i * n + j) * b j)
            + ∑ j in Finset.Ico (k + 4) n, A (i * n + j) * b j :=
        (Finset.sum_Ico_consecutive _ (by omega) hk).symm
      have h4 : ∑ j in Finset.Ico k (k + 4), A (i * n + j) * b j
          = A (i * n + k) * b k + A (i * n + (k + 1)) * b (k + 1) +
            A (i * n + (k + 2)) * b (k + 2) + A (i * n + (k + 3)) * b (k + 3) := by
        rw [Finset.sum_Ico_eq_sum_range]
        norm_num [Finset.sum_range_succ]
      rw [hsplit, h4]
      ring
    · simp only [hw1.unrolledGo, if_neg hk]
      exact tailGo_eq n A b i (n - k) k sum (by omega)

/-- The 4-lane AVX2 main loop, horizontally reduced and followed by the
remainder loop, accumulates the horizontal sum of the incoming lanes plus
all terms with index in [k, n). -/
theorem proj1_avxGo_tail_eq (n : ℕ) (A b : ℕ → ℚ) (i : ℕ) :
    ∀ fuel k s0 s1 s2 s3, n ≤ k + fuel →
      tailGo n A b i (n - (proj1.avxGo n A b i fuel k s0 s1 s2 s3).1)
          (proj1.avxGo n A b i fuel k s0 s1 s2 s3).1
          ((proj1.avxGo n A b i fuel k s0 s1 s2 s3).2.1 +
           (proj1.avxGo n A b i fuel k s0 s1 s2 s3).2.2.1 +
           (proj1.avxGo n A b i fuel k s0 s1 s2 s3).2.2.2.1 +
           (proj1.avxGo n A b i fuel k s0 s1 s2 s3).2.2.2.2)
        = (s0 + s1 + s2 + s3) + ∑ j in Finset.Ico k n, A (i * n + j) * b j := by
  intro fuel
  induction fuel with
  | zero =>
    intro k s0 s1 s2 s3 h
    simp only [proj1.avxGo]
    exact tailGo_eq n A b i (n - k) k _ (by omega)
  | succ fuel ih =>
    intro k s0 s1 s2 s3 h
    by_cases hk : k + 4 ≤ n
    · simp only [proj1.avxGo, if_pos hk]
      rw [ih (k + 4) _ _ _ _ (by omega)]
      have hsplit : ∑ j in Finset.Ico k n, A (i * n + j) * b j
          = (∑ j in Finset.Ico k (k + 4), A (i * n + j) * b j)
            + ∑ j in Finset.Ico (k + 4) n, A (i * n + j) * b j :=
        (Finset.sum_Ico_consecutive _ (by omega) hk).symm
      have h4 : ∑ j in Finset.Ico k (k + 4), A (i * n + j) * b j
          = A (i * n + k) * b k + A (i * n + (k + 1)) * b (k + 1) +
            A (i * n + (k + 2)) * b (k + 2) + A (i * n + (k + 3)) * b (k + 3) := by
        rw [Finset.sum_Ico_eq_sum_range]
        norm_num [Finset.sum_range_succ]
      rw [hsplit, h4]
      ring
    · simp only [proj1.avxGo, if_neg hk]
      exact tailGo_eq n A b i (n - k) k _ (by omega)

/-- The 8-lane AVX2 main loop, horizontally reduced and followed by the
remainder loop, accumulates the horizontal sum of the incoming lanes plus
all terms with index in [k, n). -/
theorem hw1_avx8Go_tail_eq (n : ℕ) (A b : ℕ → ℚ) (i : ℕ) :
    ∀ fuel k s0 s1 s2 s3 s4 s5 s6 s7, n ≤ k + fuel →
      tailGo n A b i (n - (hw1.avx8Go n A b i fuel k s0 s1 s2 s3 s4 s5 s6 s7).1)
          (hw1.avx8Go n A b i fuel k s0 s1 s2 s3 s4 s5 s6 s7).1
          ((hw1.avx8Go n A b i fuel k s0 s1 s2 s3 s4 s5 s6 s7).2.1 +
           (hw1.avx8Go n A b i fuel k s0 s1 s2 s3 s4 s5 s6 s7).2.2.1 +
           (hw1.avx8Go n A b i fuel k s0 s1 s2 s3 s4 s5 s6 s7).2.2.2.1 +
           (hw1.avx8Go n A b i fuel k s0 s1 s2 s3 s4 s5 s6 s7).2.2.2.2.1 +
           (hw1.avx8Go n A b i fuel k s0 s1 s2 s3 s4 s5 s6 s7).2.2.2.2.2.1 +
           (hw1.avx8Go n A b i fuel k s0 s1 s2 s3 s4 s5 s6 s7).2.2.2.2.2.2.1 +
           (hw1.avx8Go n A b i fuel k s0 s1 s2 s3 s4 s5 s6 s7).2.2.2.2.2.2.2.1 +
           (hw1.avx8Go n A b i fuel k s0 s1 s2 s3 s4 s5 s6 s7).2.2.2.2.2.2.2.2)
        = (s0 + s1 + s2 + s3 + s4 + s5 + s6 + s7)
          + ∑ j in Finset.Ico k n, A (i * n + j) * b j := by
  intro fuel
  induction fuel with
  | zero =>
    intro k s0 s1 s2 s3 s4 s5 s6 s7 h
    simp only [hw1.avx8Go]
    exact tailGo_eq n A b i (n - k) k _ (by omega)
  | succ fuel ih =>
    intro k s0 s1 s2 s3 s4 s5 s6 s7 h
    by_cases hk : k + 8 ≤ n
    · simp only [hw1.avx8Go, if_pos hk]
      rw [ih (k + 8) _ _ _ _ _ _ _ _ (by omega)]
      have hsplit : ∑ j in Finset.Ico k n, A (i * n + j) * b j
          = (∑ j in Finset.Ico k (k + 8), A (i * n + j) * b j)
            + ∑ j in Finset.Ico (k + 8) n, A (i * n + j) * b j :=
        (Finset.sum_Ico_consecutive _ (by omega) hk).symm
      have h8 : ∑ j in Finset.Ico k (k + 8), A (i * n + j) * b j
          = A (i * n + k) * b k + A (i * n + (k + 1)) * b (k + 1) +
            A (i * n + (k + 2)) * b (k + 2) + A (i * n + (k + 3)) * b (k + 3) +
            A (i * n + (k + 4)) * b (k + 4) + A (i * n + (k + 5)) * b (k + 5) +
            A (i * n + (k + 6)) * b (k + 6) + A (i * n + (k + 7)) * b (k + 7) := by
        rw [Finset.sum_Ico_eq_sum_range]
        norm_num [Finset.sum_range_succ]
      rw [hsplit, h8]
      ring
    · simp only [hw1.avx8Go, if_neg hk]
      exact tailGo_eq n A b i (n - k) k _ (by omega)

/-- The final value of the loop counter after the width-8 main loop:
starting from k it advances to k + 8*((n-k)/8), so from 0 it covers
exactly the first 8*(n/8) = floor(n/8)*8 terms. -/
theorem proj1_unrolledGo_fst (n : ℕ) (A b : ℕ → ℚ) (i : ℕ) :
    ∀ fuel k sum, n ≤ k + fuel →
      (proj1.unrolledGo n A b i fuel k sum).1 = k + 8 * ((n - k) / 8) := by
  intro fuel
  induction fuel with
  | zero =>
    intro k sum h
    simp only [proj1.unrolledGo]
    omega
  | succ fuel ih =>
    intro k sum h
    by_cases hk : k + 8 ≤ n
    · simp only [proj1.unrolledGo, if_pos hk]
      rw [ih (k + 8) _ (by omega)]
      omega
    · simp only [proj1.unrolledGo, if_neg hk]
      omega

/-- The final value of the loop counter after the width-4 main loop of the
hw1 unrolled kernel: from 0 it covers exactly the first 4*(n/4) terms. -/
theorem hw1_unrolledGo_fst (n : ℕ) (A b : ℕ → ℚ) (i : ℕ) :
    ∀ fuel k sum, n ≤ k + fuel →
      (hw1.unrolledGo n A b i fuel k sum).1 = k + 4 * ((n - k) / 4) := by
  intro fuel
  induction fuel with
  | zero =>
    intro k sum h
    simp only [hw1.unrolledGo]
    omega
  | succ fuel ih =>
    intro k sum h
    by_cases hk : k + 4 ≤ n
    · simp only [hw1.unrolledGo, if_pos hk]
      rw [ih (k + 4) _ (by omega)]
      omega
    · simp only [hw1.unrolledGo, if_neg hk]
      omega

/-! ## Generic lemmas about folds of pointwise updates -/

/-- Value after a fold of writes at pairwise-distinct addresses φ j: the
cell φ j holds g j. -/
theorem foldl_update_get (φ : ℕ → ℕ) (g : ℕ → ℚ) (c : ℕ → ℚ) :
    ∀ m, (∀ j1 j2, j1 < m → j2 < m → φ j1 = φ j2 → j1 = j2) →
      ∀ j, j < m →
        ((List.range m).foldl (fun c j => Function.update c (φ j) (g j)) c) (φ j) = g j := by
  intro m
  induction m with
  | zero => intro _ j hj; omega
  | succ m ih =>
    intro hinj j hj
    rw [List.range_succ, List.foldl_append, List.foldl_cons, List.foldl_nil]
    by_cases hjm : j = m
    · subst hjm
      exact Function.update_same _ _ _
    · rw [Function.update_noteq (fun hEq => hjm (hinj j m (by omega) (by omega) hEq))]
      exact ih (fun j1 j2 h1 h2 => hinj j1 j2 (by omega) (by omega)) j (by omega)

/-- A fold of writes leaves every address it never writes unchanged. -/
theorem foldl_update_untouched (φ : ℕ → ℕ) (g : ℕ → ℚ) (c : ℕ → ℚ) :
    ∀ m x, (∀ j, j < m → φ j ≠ x) →
      ((List.range m).foldl (fun c j => Function.update c (φ j) (g j)) c) x = c x := by
  intro m
  induction m with
  | zero => intro x _; rfl
  | succ m ih =>
    intro x hx
    rw [List.range_succ, List.foldl_append, List.foldl_cons, List.foldl_nil,
      Function.update_noteq (Ne.symm (hx m (by omega)))]
    exact ih x (fun j hj => hx j (by omega))

/-- The inner k-loop of the baseline kernel, started right after c[i] = s,
leaves c[i] holding s plus the sum of its terms. -/
theorem innerAccum_eq (i : ℕ) (t : ℕ → ℚ) (c : ℕ → ℚ) :
    ∀ m (s : ℚ),
      (List.range m).foldl (fun c k => Function.update c i (c i + t k))
          (Function.update c i s)
        = Function.update c i (s + ∑ k in Finset.range m, t k) := by
  intro m
  induction m with
  | zero => intro s; simp
  | succ m ih =>
    intro s
    rw [List.range_succ, List.foldl_append, ih s, List.foldl_cons, List.foldl_nil,
      Function.update_same, Function.update_idem, Finset.sum_range_succ, add_assoc]

/-- One pass of the interchanged accumulation adds T j to every cell
j < m and leaves the rest unchanged. -/
theorem iPass_eq (m : ℕ) (T : ℕ → ℚ) (c : ℕ → ℚ) :
    (List.range m).foldl (fun c i => Function.update c i (c i + T i)) c
      = fun j => if j < m then c j + T j else c j := by
  induction m with
  | zero => funext j; simp
  | succ m ih =>
    rw [List.range_succ, List.foldl_append, ih, List.foldl_cons, List.foldl_nil]
    funext j
    rw [Function.update_apply]
    by_cases hjm : j = m
    · subst hjm; simp
    · by_cases hjlt : j < m
      · rw [if_neg hjm, if_pos hjlt, if_pos (by omega : j < m + 1)]
      · rw [if_neg hjm, if_neg hjlt, if_neg (by omega : ¬ j < m + 1)]

/-- The k-outer double loop of the interchanged kernels and MatVecMult:
after m outer iterations every cell j < R holds its initial value plus the
sum over k < m of T j k, and cells j ≥ R are unchanged. -/
theorem kPass_eq (R : ℕ) (T : ℕ → ℕ → ℚ) (c : ℕ → ℚ) :
    ∀ m, ((List.range m).foldl (fun c k =>
          (List.range R).foldl (fun c i => Function.update c i (c i + T i k)) c) c)
        = fun j => if j < R then c j + ∑ k in Finset.range m, T j k else c j := by
  intro m
  induction m with
  | zero => funext j; simp
  | succ m ih =>
    rw [List.range_succ, List.foldl_append, List.foldl_cons, List.foldl_nil, ih, iPass_eq]
    funext j
    by_cases hj : j < R
    · rw [if_pos hj, if_pos hj, if_pos hj, Finset.sum_range_succ, add_assoc]
    · rw [if_neg hj, if_neg hj, if_neg hj]

/-! ## Pointwise characterization of the generators and kernels -/

/-- zeroFill zeroes exactly the cells below n. -/
theorem zeroFill_apply (n : ℕ) (c : ℕ → ℚ) (x : ℕ) :
    zeroFill n c x = if x < n then 0 else c x := by
  unfold zeroFill
  by_cases hx : x < n
  · rw [if_pos hx]
    exact foldl_update_get (fun j => j) (fun _ => 0) c n (fun j1 j2 _ _ h => h) x hx
  · rw [if_neg hx]
    exact foldl_update_untouched (fun j => j) (fun _ => 0) c n x
      (fun j hj => by show j ≠ x; omega)

/-- initVec writes exactly f at the cells below n. -/
theorem initVec_apply (n : ℕ) (f : ℕ → ℚ) (b : ℕ → ℚ) (x : ℕ) :
    initVec n f b x = if x < n then f x else b x := by
  unfold initVec
  by_cases hx : x < n
  · rw [if_pos hx]
    exact foldl_update_get (fun j => j) f b n (fun j1 j2 _ _ h => h) x hx
  · rw [if_neg hx]
    exact foldl_update_untouched (fun j => j) f b n x
      (fun j hj => by show j ≠ x; omega)

/-- InitMatrix puts 1/(i+j+2) at flat index i*Cols+j for every i < Rows,
j < Cols. -/
theorem InitMatrix_apply (Cols : ℕ) (A : ℕ → ℚ) :
    ∀ Rows i j, i < Rows → j < Cols →
      InitMatrix Rows Cols A (i * Cols + j) = 1 / ((i : ℚ) + (j : ℚ) + 2) := by
  intro Rows
  induction Rows with
  | zero => intro i j hi _; omega
  | succ R ih =>
    intro i j hi hj
    unfold InitMatrix
    rw [List.range_succ, List.foldl_append, List.foldl_cons, List.foldl_nil]
    by_cases hiR : i = R
    · subst hiR
      exact foldl_update_get (fun j2 => i * Cols + j2)
        (fun j2 => 1 / ((i : ℚ) + (j2 : ℚ) + 2)) _ Cols
        (fun j1 j2 _ _ h => Nat.add_left_cancel h) j hj
    · have hLt : i < R := by omega
      have hne : ∀ j2, j2 < Cols → R * Cols + j2 ≠ i * Cols + j := by
        intro j2 _
        have h1 : i * Cols + j < i * Cols + Cols := Nat.add_lt_add_left hj _
        have h2 : i * Cols + Cols ≤ R * Cols := by
          have h3 : (i + 1) * Cols ≤ R * Cols := Nat.mul_le_mul_right _ (by omega)
          calc i * Cols + Cols = (i + 1) * Cols := by ring
            _ ≤ R * Cols := h3
        have h4 : i * Cols + j < R * Cols + j2 := by omega
        omega
      rw [foldl_update_untouched (fun j2 => R * Cols + j2)
        (fun j2 => 1 / ((R : ℚ) + (j2 : ℚ) + 2)) _ Cols _ hne]
      exact ih i j hLt hj

/-- The per-row value of the proj1 unrolled kernel is the exact inner
product of row i with b. -/
theorem proj1_unrolledRow_eq (n : ℕ) (A b : ℕ → ℚ) (i : ℕ) :
    proj1.unrolledRow n A b i = rowSum n A b i := by
  simp only [proj1.unrolledRow]
  rw [proj1_unrolledGo_tail_eq n A b i n 0 0 (by omega), zero_add]
  unfold rowSum
  rw [Finset.range_eq_Ico]

/-- The per-row value of the hw1 unrolled kernel is the exact inner
product of row i with b. -/
theorem hw1_unrolledRow_eq (n : ℕ) (A b : ℕ → ℚ) (i : ℕ) :
    hw1.unrolledRow n A b i = rowSum n A b i := by
  simp only [hw1.unrolledRow]
  rw [hw1_unrolledGo_tail_eq n A b i n 0 0 (by omega), zero_add]
  unfold rowSum
  rw [Finset.range_eq_Ico]

/-- The per-row value of the proj1 AVX2 kernel is the exact inner product
of row i with b. -/
theorem proj1_avxRow_eq (n : ℕ) (A b : ℕ → ℚ) (i : ℕ) :
    proj1.avxRow n A b i = rowSum n A b i := by
  simp only [proj1.avxRow]
  rw [proj1_avxGo_tail_eq n A b i n 0 0 0 0 0 (by omega)]
  unfold rowSum
  rw [Finset.range_eq_Ico]
  ring

/-- The per-row value of the hw1 AVX2 kernel is the exact inner product of
row i with b. -/
theorem hw1_avxRow_eq (n : ℕ) (A b : ℕ → ℚ) (i : ℕ) :
    hw1.avxRow n A b i = rowSum n A b i := by
  simp only [hw1.avxRow]
  rw [hw1_avx8Go_tail_eq n A b i n 0 0 0 0 0 0 0 0 0 (by omega)]
  unfold rowSum
  rw [Finset.range_eq_Ico]
  ring

/-- The baseline kernel leaves each cell x < n holding the exact inner
product of row x with b, and the rest of memory unchanged. -/
theorem proj1_Mv_mult_apply (n : ℕ) (A b c : ℕ → ℚ) (x : ℕ) :
    proj1.Mv_mult n A b c x = if x < n then rowSum n A b x else c x := by
  unfold proj1.Mv_mult
  have hbody : (fun (c : ℕ → ℚ) (i : ℕ) =>
      (List.range n).foldl (fun c k => Function.update c i (c i + A (i * n + k) * b k))
        (Function.update c i 0))
      = fun (c : ℕ → ℚ) (i : ℕ) => Function.update c i (rowSum n A b i) := by
    funext c i
    rw [innerAccum_eq i (fun k => A (i * n + k) * b k) c n 0, zero_add]
    rfl
  rw [hbody]
  by_cases hx : x < n
  · rw [if_pos hx]
    exact foldl_update_get (fun j => j) (rowSum n A b) c n (fun j1 j2 _ _ h => h) x hx
  · rw [if_neg hx]
    exact foldl_update_untouched (fun j => j) (rowSum n A b) c n x
      (fun j hj => by show j ≠ x; omega)

/-- The proj1 interchanged kernel computes exactly the same cell values as
the baseline. -/
theorem proj1_Mv_mult_interchanged_apply (n : ℕ) (A b c : ℕ → ℚ) (x : ℕ) :
    proj1.Mv_mult_interchanged n A b c x = if x < n then rowSum n A b x else c x := by
  unfold proj1.Mv_mult_interchanged
  rw [kPass_eq n (fun i k => A (i * n + k) * b k) (zeroFill n c) n]
  by_cases hx : x < n
  · simp only [if_pos hx, zeroFill_apply, zero_add]
    rfl
  · simp only [if_neg hx, zeroFill_apply]

/-- The hw1 interchanged kernel computes exactly the same cell values as
the baseline. -/
theorem hw1_Mv_mult_interchanged_apply (n : ℕ) (A b c : ℕ → ℚ) (x : ℕ) :
    hw1.Mv_mult_interchanged n A b c x = if x < n then rowSum n A b x else c x := by
  unfold hw1.Mv_mult_interchanged
  rw [kPass_eq n (fun i k => A (i * n + k) * b k) (zeroFill n c) n]
  by_cases hx : x < n
  · simp only [if_pos hx, zeroFill_apply, zero_add]
    rfl
  · simp only [if_neg hx, zeroFill_apply]

/-- MatVecMult from Mv.c leaves each cell x < ARows holding the exact inner
product of row x of A with B, and the rest of memory unchanged. -/
theorem cMv_MatVecMult_apply (ARows ACols : ℕ) (A B C : ℕ → ℚ) (x : ℕ) :
    cMv.MatVecMult ARows ACols A B C x
      = if x < ARows then ∑ k in Finset.range ACols, A (x * ACols + k) * B k else C x := by
  unfold cMv.MatVecMult
  rw [kPass_eq ARows (fun i k => A (i * ACols + k) * B k) (zeroFill ARows C) ACols]
  by_cases hx : x < ARows
  · simp only [if_pos hx, zeroFill_apply, zero_add]
  · simp only [if_neg hx, zeroFill_apply]

/-- The proj1 unrolled kernel computes exactly the same cell values as the
baseline. -/
theorem proj1_Mv_mult_unrolled_apply (n : ℕ) (A b c : ℕ → ℚ) (x : ℕ) :
    proj1.Mv_mult_unrolled n A b c x = if x < n then rowSum n A b x else c x := by
  unfold proj1.Mv_mult_unrolled
  by_cases hx : x < n
  · rw [if_pos hx, ← proj1_unrolledRow_eq]
    exact foldl_update_get (fun j => j) (proj1.unrolledRow n A b) c n
      (fun j1 j2 _ _ h => h) x hx
  · rw [if_neg hx]
    exact foldl_update_untouched (fun j => j) (proj1.unrolledRow n A b) c n x
      (fun j hj => by show j ≠ x; omega)

/-- The proj1 AVX2 kernel computes exactly the same cell values as the
baseline. -/
theorem proj1_Mv_mult_optimized_apply (n : ℕ) (A b c : ℕ → ℚ) (x : ℕ) :
    proj1.Mv_mult_optimized n A b c x = if x < n then rowSum n A b x else c x := by
  unfold proj1.Mv_mult_optimized
  by_cases hx : x < n
  · rw [if_pos hx, ← proj1_avxRow_eq]
    exact foldl_update_get (fun j => j) (proj1.avxRow n A b) c n
      (fun j1 j2 _ _ h => h) x hx
  · rw [if_neg hx]
    exact foldl_update_untouched (fun j => j) (proj1.avxRow n A b) c n x
      (fun j hj => by show j ≠ x; omega)

/-- The hw1 unrolled kernel computes exactly the same cell values as the
baseline. -/
theorem hw1_Mv_mult_unrolled_apply (n : ℕ) (A b c : ℕ → ℚ) (x : ℕ) :
    hw1.Mv_mult_unrolled n A b c x = if x < n then rowSum n A b x else c x := by
  unfold hw1.Mv_mult_unrolled
  by_cases hx : x < n
  · rw [if_pos hx, ← hw1_unrolledRow_eq]
    exact foldl_update_get (fun j => j) (hw1.unrolledRow n A b) c n
      (fun j1 j2 _ _ h => h) x hx
  · rw [if_neg hx]
    exact foldl_update_untouched (fun j => j) (hw1.unrolledRow n A b) c n x
      (fun j hj => by show j ≠ x; omega)

/-- The hw1 AVX2 kernel computes exactly the same cell values as the
baseline. -/
theorem hw1_Mv_mult_avx2_apply (n : ℕ) (A b c : ℕ → ℚ) (x : ℕ) :
    hw1.Mv_mult_avx2 n A b c x = if x < n then rowSum n A b x else c x := by
  unfold hw1.Mv_mult_avx2
  by_cases hx : x < n
  · rw [if_pos hx, ← hw1_avxRow_eq]
    exact foldl_update_get (fun j => j) (hw1.avxRow n A b) c n
      (fun j1 j2 _ _ h => h) x hx
  · rw [if_neg hx]
    exact foldl_update_untouched (fun j => j) (hw1.avxRow n A b) c n x
      (fun j hj => by show j ≠ x; omega)

/-- Two state functions agreeing below n have the same result vector. -/
theorem resultVec_congr (n : ℕ) (f g : ℕ → ℚ) (h : ∀ j, j < n → f j = g j) :
    resultVec n f = resultVec n g := by
  unfold resultVec
  apply List.map_congr_left
  intro a ha
  exact h a (List.mem_range.mp ha)

/-- The result vector has length n. -/
theorem resultVec_length (n : ℕ) (c : ℕ → ℚ) : (resultVec n c).length = n := by
  simp [resultVec]

/-! ## Claim theorems -/

/-- C1: for every N > 0, every row-major A and vector b, each kernel
variant — baseline (proj1 Mv_mult), interchanged (proj1 and hw1),
unrolled (proj1 width 8 and hw1 width 4), vectorized (proj1 4-lane and
hw1 8-lane AVX2) and the Mv.c MatVecMult — stores at c[i] the sum over k
in [0,N) of A[i*N+k] * b[k], for every i < N (arithmetic embedded
exactly, over ℚ). -/
theorem C1_kernels_compute_inner_products
    (n : ℕ) (A b c : ℕ → ℚ) (i : ℕ) (hn : 0 < n) (hi : i < n) :
    proj1.Mv_mult n A b c i = rowSum n A b i ∧
    proj1.Mv_mult_interchanged n A b c i = rowSum n A b i ∧
    proj1.Mv_mult_unrolled n A b c i = rowSum n A b i ∧
    proj1.Mv_mult_optimized n A b c i = rowSum n A b i ∧
    cMv.MatVecMult n n A b c i = rowSum n A b i ∧
    hw1.Mv_mult_unrolled n A b c i = rowSum n A b i ∧
    hw1.Mv_mult_avx2 n A b c i = rowSum n A b i ∧
    hw1.Mv_mult_interchanged n A b c i = rowSum n A b i := by
  refine ⟨?_, ?_, ?_, ?_, ?_, ?_, ?_, ?_⟩
  · rw [proj1_Mv_mult_apply, if_pos hi]
  · rw [proj1_Mv_mult_interchanged_apply, if_pos hi]
  · rw [proj1_Mv_mult_unrolled_apply, if_pos hi]
  · rw [proj1_Mv_mult_optimized_apply, if_pos hi]
  · rw [cMv_MatVecMult_apply, if_pos hi]; rfl
  · rw [hw1_Mv_mult_unrolled_apply, if_pos hi]
  · rw [hw1_Mv_mult_avx2_apply, if_pos hi]
  · rw [hw1_Mv_mult_interchanged_apply, if_pos hi]

/-- Witness for C1 at n = 2, i = 1, A m = m, b m = m + 1, c m = 7. -/
theorem C1_kernels_compute_inner_products_witness :
    0 < 2 ∧ 1 < 2 ∧
    (proj1.Mv_mult 2 (fun m => (m : ℚ)) (fun m => (m : ℚ) + 1) (fun _ => 7) 1
        = rowSum 2 (fun m => (m : ℚ)) (fun m => (m : ℚ) + 1) 1 ∧
     proj1.Mv_mult_interchanged 2 (fun m => (m : ℚ)) (fun m => (m : ℚ) + 1) (fun _ => 7) 1
        = rowSum 2 (fun m => (m : ℚ)) (fun m => (m : ℚ) + 1) 1 ∧
     proj1.Mv_mult_unrolled 2 (fun m => (m : ℚ)) (fun m => (m : ℚ) + 1) (fun _ => 7) 1
        = rowSum 2 (fun m => (m : ℚ)) (fun m => (m : ℚ) + 1) 1 ∧
     proj1.Mv_mult_optimized 2 (fun m => (m : ℚ)) (fun m => (m : ℚ) + 1) (fun _ => 7) 1
        = rowSum 2 (fun m => (m : ℚ)) (fun m => (m : ℚ) + 1) 1 ∧
     cMv.MatVecMult 2 2 (fun m => (m : ℚ)) (fun m => (m : ℚ) + 1) (fun _ => 7) 1
        = rowSum 2 (fun m => (m : ℚ)) (fun m => (m : ℚ) + 1) 1 ∧
     hw1.Mv_mult_unrolled 2 (fun m => (m : ℚ)) (fun m => (m : ℚ) + 1) (fun _ => 7) 1
        = rowSum 2 (fun m => (m : ℚ)) (fun m => (m : ℚ) + 1) 1 ∧
     hw1.Mv_mult_avx2 2 (fun m => (m : ℚ)) (fun m => (m : ℚ) + 1) (fun _ => 7) 1
        = rowSum 2 (fun m => (m : ℚ)) (fun m => (m : ℚ) + 1) 1 ∧
     hw1.Mv_mult_interchanged 2 (fun m => (m : ℚ)) (fun m => (m : ℚ) + 1) (fun _ => 7) 1
        = rowSum 2 (fun m => (m : ℚ)) (fun m => (m : ℚ) + 1) 1) :=
  ⟨by decide, by decide,
   C1_kernels_compute_inner_products 2 (fun m => (m : ℚ)) (fun m => (m : ℚ) + 1)
     (fun _ => 7) 1 (by decide) (by decide)⟩

/-- C2: for every n ≥ 0 and all inputs, the unrolled variants (widths 4
and 8), the interchanged variants, the vectorized variants and MatVecMult
produce the same result vector as the baseline under exact arithmetic;
moreover the unrolled main loop stops with k = floor(n/W)*W, so it covers
exactly the first floor(n/W)*W terms and leaves n mod W terms for the
remainder loop, for every n including n < W and n a multiple of W. -/
theorem C2_variants_refine_baseline (n : ℕ) (A b c : ℕ → ℚ) :
    resultVec n (proj1.Mv_mult_interchanged n A b c) = resultVec n (proj1.Mv_mult n A b c) ∧
    resultVec n (proj1.Mv_mult_unrolled n A b c) = resultVec n (proj1.Mv_mult n A b c) ∧
    resultVec n (proj1.Mv_mult_optimized n A b c) = resultVec n (proj1.Mv_mult n A b c) ∧
    resultVec n (hw1.Mv_mult_unrolled n A b c) = resultVec n (proj1.Mv_mult n A b c) ∧
    resultVec n (hw1.Mv_mult_avx2 n A b c) = resultVec n (proj1.Mv_mult n A b c) ∧
    resultVec n (hw1.Mv_mult_interchanged n A b c) = resultVec n (proj1.Mv_mult n A b c) ∧
    resultVec n (cMv.MatVecMult n n A b c) = resultVec n (proj1.Mv_mult n A b c) ∧
    (∀ i, (proj1.unrolledGo n A b i n 0 0).1 = 8 * (n / 8)) ∧
    (∀ i, (hw1.unrolledGo n A b i n 0 0).1 = 4 * (n / 4)) := by
  refine ⟨?_, ?_, ?_, ?_, ?_, ?_, ?_, ?_, ?_⟩
  · exact resultVec_congr n _ _ (fun j hj => by
      rw [proj1_Mv_mult_interchanged_apply, proj1_Mv_mult_apply])
  · exact resultVec_congr n _ _ (fun j hj => by
      rw [proj1_Mv_mult_unrolled_apply, proj1_Mv_mult_apply])
  · exact resultVec_congr n _ _ (fun j hj => by
      rw [proj1_Mv_mult_optimized_apply, proj1_Mv_mult_apply])
  · exact resultVec_congr n _ _ (fun j hj => by
      rw [hw1_Mv_mult_unrolled_apply, proj1_Mv_mult_apply])
  · exact resultVec_congr n _ _ (fun j hj => by
      rw [hw1_Mv_mult_avx2_apply, proj1_Mv_mult_apply])
  · exact resultVec_congr n _ _ (fun j hj => by
      rw [hw1_Mv_mult_interchanged_apply, proj1_Mv_mult_apply])
  · exact resultVec_congr n _ _ (fun j hj => by
      rw [cMv_MatVecMult_apply, proj1_Mv_mult_apply, if_pos hj, if_pos hj]; rfl)
  · intro i
    rw [proj1_unrolledGo_fst n A b i n 0 0 (by omega)]
    omega
  · intro i
    rw [hw1_unrolledGo_fst n A b i n 0 0 (by omega)]
    omega

/-- C10: for every n, A, b and any two initial contents of the output
array, every kernel variant produces the same final result vector — the
result never depends on c's prior contents. -/
theorem C10_result_independent_of_initial_c (n : ℕ) (A b c c' : ℕ → ℚ) :
    resultVec n (proj1.Mv_mult n A b c) = resultVec n (proj1.Mv_mult n A b c') ∧
    resultVec n (proj1.Mv_mult_interchanged n A b c)
      = resultVec n (proj1.Mv_mult_interchanged n A b c') ∧
    resultVec n (proj1.Mv_mult_unrolled n A b c)
      = resultVec n (proj1.Mv_mult_unrolled n A b c') ∧
    resultVec n (proj1.Mv_mult_optimized n A b c)
      = resultVec n (proj1.Mv_mult_optimized n A b c') ∧
    resultVec n (cMv.MatVecMult n n A b c) = resultVec n (cMv.MatVecMult n n A b c') ∧
    resultVec n (hw1.Mv_mult_unrolled n A b c)
      = resultVec n (hw1.Mv_mult_unrolled n A b c') ∧
    resultVec n (hw1.Mv_mult_avx2 n A b c) = resultVec n (hw1.Mv_mult_avx2 n A b c') ∧
    resultVec n (hw1.Mv_mult_interchanged n A b c)
      = resultVec n (hw1.Mv_mult_interchanged n A b c') := by
  refine ⟨?_, ?_, ?_, ?_, ?_, ?_, ?_, ?_⟩
  · exact resultVec_congr n _ _ (fun j hj => by
      rw [proj1_Mv_mult_apply, proj1_Mv_mult_apply, if_pos hj, if_pos hj])
  · exact resultVec_congr n _ _ (fun j hj => by
      rw [proj1_Mv_mult_interchanged_apply, proj1_Mv_mult_interchanged_apply,
        if_pos hj, if_pos hj])
  · exact resultVec_congr n _ _ (fun j hj => by
      rw [proj1_Mv_mult_unrolled_apply, proj1_Mv_mult_unrolled_apply, if_pos hj, if_pos hj])
  · exact resultVec_congr n _ _ (fun j hj => by
      rw [proj1_Mv_mult_optimized_apply, proj1_Mv_mult_optimized_apply,
        if_pos hj, if_pos hj])
  · exact resultVec_congr n _ _ (fun j hj => by
      rw [cMv_MatVecMult_apply, cMv_MatVecMult_apply, if_pos hj, if_pos hj])
  · exact resultVec_congr n _ _ (fun j hj => by
      rw [hw1_Mv_mult_unrolled_apply, hw1_Mv_mult_unrolled_apply, if_pos hj, if_pos hj])
  · exact resultVec_congr n _ _ (fun j hj => by
      rw [hw1_Mv_mult_avx2_apply, hw1_Mv_mult_avx2_apply, if_pos hj, if_pos hj])
  · exact resultVec_congr n _ _ (fun j hj => by
      rw [hw1_Mv_mult_interchanged_apply, hw1_Mv_mult_interchanged_apply,
        if_pos hj, if_pos hj])

/-- C3: the hw1 harness defaults to avx2 when the selector is omitted and
dispatches avx2/unroll/interchange, but its own usage text documents
"baseline" as a selectable optimization type while the dispatch rejects it:
invoking with selector "baseline" prints the unknown-type error plus the
usage text and exits 1 instead of running the baseline kernel. -/
theorem C3_baseline_selector_rejected :
    (hw1.main ["baseline", "4"] 1).exitCode = 1 ∧
    (hw1.main ["baseline", "4"] 1).report = none ∧
    (hw1.main ["baseline", "4"] 1).kernelRan = false ∧
    (hw1.main ["baseline", "4"] 1).errOut
      = "Error: Unknown optimization type" :: hw1.usageLines ∧
    "  baseline    - Standard i-k loop implementation" ∈ hw1.usageLines ∧
    hw1.main ["4"] 1 = hw1.main ["avx2", "4"] 1 := by
  refine ⟨by decide, by decide, by decide, by decide, by decide, rfl⟩

/-- C4 counterexample: the Mv.c harness performs no validation of N — on
dimension argument "0" it proceeds, prints a full numeric report and exits
with status 0, contradicting the claim that every such invocation errors
out with status 1 and no numeric output. -/
theorem C4_MvC_accepts_dimension_zero :
    (cMv.main ["0"] 1 (fun _ => 0) (fun _ => 0) (fun _ => 0)).exitCode = 0 ∧
    (cMv.main ["0"] 1 (fun _ => 0) (fun _ => 0) (fun _ => 0)).report ≠ none ∧
    (cMv.main ["0"] 1 (fun _ => 0) (fun _ => 0) (fun _ => 0)).kernelRan = true := by
  refine ⟨by decide, by decide, by decide⟩

/-- C4 amended: the four proj1 programs do validate the dimension — when
the argument is non-numeric (atoi gives 0) or parses to N ≤ 0 they print
a descriptive error to the error stream, produce no numeric output,
attempt no computation and exit with status 1; the Mv.c and hw1 harnesses
perform no such validation. -/
theorem C4_proj1_rejects_nonpositive_dimension (p : proj1.Prog) (arg : String) (t : ℚ)
    (h : atoi arg ≤ 0) :
    (proj1.main p [arg] t).exitCode = 1 ∧
    (proj1.main p [arg] t).report = none ∧
    (proj1.main p [arg] t).kernelRan = false ∧
    (proj1.main p [arg] t).errOut = ["Matrix size must be a positive integer."] := by
  simp [proj1.main, h]

/-- Witness for C4 at the proj1 baseline program with argument "-5". -/
theorem C4_proj1_rejects_nonpositive_dimension_witness :
    atoi "-5" ≤ 0 ∧
    ((proj1.main proj1.Prog.baseline ["-5"] 1).exitCode = 1 ∧
     (proj1.main proj1.Prog.baseline ["-5"] 1).report = none ∧
     (proj1.main proj1.Prog.baseline ["-5"] 1).kernelRan = false ∧
     (proj1.main proj1.Prog.baseline ["-5"] 1).errOut
       = ["Matrix size must be a positive integer."]) :=
  ⟨by decide, C4_proj1_rejects_nonpositive_dimension proj1.Prog.baseline "-5" 1 (by decide)⟩

/-- C5: when the allocation of A fails, CreateMatrix does print the
file/line diagnostic, but main never tests the null result: the
multiplication is still attempted and control still reaches the timing
printf — the run is not aborted, contradicting the claim. -/
theorem C5_alloc_failure_reported_but_not_aborted :
    (cMv.mainAllocFlow false true true).1 ≠ [] ∧
    (cMv.mainAllocFlow false true true).2.1 = true ∧
    (cMv.mainAllocFlow false true true).2.2 = true := by
  refine ⟨by decide, by decide, by decide⟩

/-- The Mv.c vector generator InitMatrix(B, M, 1) puts 1/(i+2) at index i
for i < n. -/
theorem cMv_generated_B_apply (n : ℕ) (B0 : ℕ → ℚ) (k : ℕ) (hk : k < n) :
    InitMatrix n 1 B0 k = 1 / ((k : ℚ) + 2) := by
  have h := InitMatrix_apply 1 B0 n k 0 hk (by omega)
  simpa using h

/-- C6: the generators are pure functions of the indices: every harness
sets A[i*N+j] = 1/(i+j+2); the proj1 programs set b[i] = 1/(i+1) and the
hw1 and Mv.c harnesses set b[i] = 1/(i+2), each formula fixed for all
kernel variants compared within the corresponding benchmark run. -/
theorem C6_generator_formulas (n i j : ℕ) (A0 b0 : ℕ → ℚ) (hi : i < n) (hj : j < n) :
    InitMatrix n n A0 (i * n + j) = 1 / ((i : ℚ) + (j : ℚ) + 2) ∧
    initVec n (fun m => 1 / ((m : ℚ) + 1)) b0 i = 1 / ((i : ℚ) + 1) ∧
    initVec n (fun m => 1 / ((m : ℚ) + 2)) b0 i = 1 / ((i : ℚ) + 2) ∧
    InitMatrix n 1 b0 i = 1 / ((i : ℚ) + 2) := by
  refine ⟨InitMatrix_apply n A0 n i j hi hj, ?_, ?_, cMv_generated_B_apply n b0 i hi⟩
  · rw [initVec_apply, if_pos hi]
  · rw [initVec_apply, if_pos hi]

/-- Witness for C6 at n = 2, i = 1, j = 0. -/
theorem C6_generator_formulas_witness :
    1 < 2 ∧ 0 < 2 ∧
    (InitMatrix 2 2 (fun _ => (5 : ℚ)) (1 * 2 + 0) = 1 / ((1 : ℚ) + (0 : ℚ) + 2) ∧
     initVec 2 (fun m => 1 / ((m : ℚ) + 1)) (fun _ => (5 : ℚ)) 1 = 1 / ((1 : ℚ) + 1) ∧
     initVec 2 (fun m => 1 / ((m : ℚ) + 2)) (fun _ => (5 : ℚ)) 1 = 1 / ((1 : ℚ) + 2) ∧
     InitMatrix 2 1 (fun _ => (5 : ℚ)) 1 = 1 / ((1 : ℚ) + 2)) :=
  ⟨by decide, by decide,
   C6_generator_formulas 2 1 0 (fun _ => (5 : ℚ)) (fun _ => (5 : ℚ)) (by decide) (by decide)⟩

/-- C8 counterexample: at N = 0 the Mv.c and hw1 reporting step samples
C[N/2] = C[0] from the empty result vector — an out-of-bounds read, so the
claim that no element outside the arrays is read "including in the
reporting step" fails (the bounds-checked read returns none, and index 0
has no entry in the empty result list). -/
theorem C8_report_read_out_of_bounds_at_zero :
    (cMv.main ["0"] 1 (fun _ => 0) (fun _ => 0) (fun _ => 0)).report ≠ none ∧
    Option.bind (cMv.main ["0"] 1 (fun _ => 0) (fun _ => 0) (fun _ => 0)).report
      Report.checksum = none ∧
    Option.bind (hw1.main ["0"] 1).report Report.checksum = none ∧
    (resultVec 0 (cMv.MatVecMult 0 0 (fun _ => 0) (fun _ => 0) (fun _ => 0))).get? 0
      = none := by
  refine ⟨by decide, by decide, by decide, by decide⟩

/-- C8 amended: for N = 0 every kernel variant leaves memory untouched and
reads nothing (the result holds for arbitrary contents of A, b and c), the
result vector is empty with zero sum-checksum, and the strided main loops
of the unrolled and vectorized kernels execute zero iterations; however
the C[N/2] sample in the Mv.c and hw1 reporting step is out of bounds at
N = 0 (see the counterexample), so only the proj1 sum-based reporting is
safe there. -/
theorem C8_degenerate_n_kernels_safe (A b c : ℕ → ℚ) :
    proj1.Mv_mult 0 A b c = c ∧
    proj1.Mv_mult_interchanged 0 A b c = c ∧
    proj1.Mv_mult_unrolled 0 A b c = c ∧
    proj1.Mv_mult_optimized 0 A b c = c ∧
    cMv.MatVecMult 0 0 A b c = c ∧
    hw1.Mv_mult_unrolled 0 A b c = c ∧
    hw1.Mv_mult_avx2 0 A b c = c ∧
    hw1.Mv_mult_interchanged 0 A b c = c ∧
    resultVec 0 (proj1.Mv_mult 0 A b c) = [] ∧
    (resultVec 0 (proj1.Mv_mult 0 A b c)).sum = 0 ∧
    (∀ i fuel v, proj1.unrolledGo 0 A b i fuel 0 v = (0, v)) ∧
    (∀ i fuel s0 s1 s2 s3, proj1.avxGo 0 A b i fuel 0 s0 s1 s2 s3 = (0, (s0, s1, s2, s3))) ∧
    (∀ i fuel v, hw1.unrolledGo 0 A b i fuel 0 v = (0, v)) ∧
    (∀ i fuel s0 s1 s2 s3 s4 s5 s6 s7,
      hw1.avx8Go 0 A b i fuel 0 s0 s1 s2 s3 s4 s5 s6 s7
        = (0, (s0, s1, s2, s3, s4, s5, s6, s7))) := by
  refine ⟨rfl, rfl, rfl, rfl, rfl, rfl, rfl, rfl, rfl, rfl, ?_, ?_, ?_, ?_⟩
  · intro i fuel v
    cases fuel with
    | zero => rfl
    | succ fuel => simp only [proj1.unrolledGo]; rw [if_neg (by omega)]
  · intro i fuel s0 s1 s2 s3
    cases fuel with
    | zero => rfl
    | succ fuel => simp only [proj1.avxGo]; rw [if_neg (by omega)]
  · intro i fuel v
    cases fuel with
    | zero => rfl
    | succ fuel => simp only [hw1.unrolledGo]; rw [if_neg (by omega)]
  · intro i fuel s0 s1 s2 s3 s4 s5 s6 s7
    cases fuel with
    | zero => rfl
    | succ fuel => simp only [hw1.avx8Go]; rw [if_neg (by omega)]

/-- C7 counterexample: the proj1 programs print elapsed time and a
checksum but no throughput figure at all on a successful run — the run
with N = 4 succeeds (exit 0, report printed) with an empty throughput
field, contradicting the claim that every successful run prints the
derived GFLOP/s value. -/
theorem C7_proj1_prints_no_throughput :
    (proj1.main proj1.Prog.baseline ["4"] 1).exitCode = 0 ∧
    (proj1.main proj1.Prog.baseline ["4"] 1).report ≠ none ∧
    Option.map Report.gflops (proj1.main proj1.Prog.baseline ["4"] 1).report
      = some none := by
  refine ⟨by decide, by decide, by decide⟩

/-- Any checksum obtained by sampling C[N/2] on a length-N.toNat result is
an in-bounds read when N > 0. -/
theorem sampled_checksum_ne_none (N : ℤ) (hN : 0 < N) (C : ℕ → ℚ) :
    readZ (resultVec N.toNat C) (Int.tdiv N 2) ≠ none := by
  unfold readZ
  rw [if_pos (Int.tdiv_nonneg (by omega) (by omega))]
  rw [Ne, List.get?_eq_none, resultVec_length]
  rw [Int.tdiv_eq_ediv (by omega) (by omega)]
  omega

/-- C7 amended: on a successful run (N > 0), the Mv.c and hw1 harnesses
print the elapsed time in microseconds, a throughput computed as
2.0*N*N*1e-3/t (which equals the spec formula 2*N^2*1e-9 divided by the
elapsed time in seconds, t/1e6), and the sampled checksum C[N/2] (an
in-bounds read), exiting 0; the proj1 harnesses exit 0 printing the
elapsed seconds and the sum-of-elements checksum but no throughput. -/
theorem C7_success_report_amended (arg : String) (t : ℚ) (A0 B0 C0 : ℕ → ℚ)
    (p : proj1.Prog) (hN : 0 < atoi arg) (ht : 0 < t) :
    (cMv.main [arg] t A0 B0 C0).exitCode = 0 ∧
    Option.map Report.timeValue (cMv.main [arg] t A0 B0 C0).report = some t ∧
    Option.map Report.timeUnit (cMv.main [arg] t A0 B0 C0).report = some "us" ∧
    Option.map Report.gflops (cMv.main [arg] t A0 B0 C0).report
      = some (some (2 * (atoi arg : ℚ) * (atoi arg : ℚ) * (1 / 1000) / t)) ∧
    2 * (atoi arg : ℚ) * (atoi arg : ℚ) * (1 / 1000) / t
      = 2 * (atoi arg : ℚ) ^ 2 * (1 / 1000000000) / (t / 1000000) ∧
    Option.bind (cMv.main [arg] t A0 B0 C0).report Report.checksum ≠ none ∧
    (hw1.main [arg] t).exitCode = 0 ∧
    Option.map Report.gflops (hw1.main [arg] t).report
      = some (some (2 * (atoi arg : ℚ) * (atoi arg : ℚ) * (1 / 1000) / t)) ∧
    Option.bind (hw1.main [arg] t).report Report.checksum ≠ none ∧
    (proj1.main p [arg] t).exitCode = 0 ∧
    Option.map Report.timeUnit (proj1.main p [arg] t).report = some "seconds" ∧
    Option.map Report.gflops (proj1.main p [arg] t).report = some none ∧
    Option.bind (proj1.main p [arg] t).report Report.checksum
      = some ((resultVec (atoi arg).toNat
          (proj1.runKernel p (atoi arg).toNat
            (InitMatrix (atoi arg).toNat (atoi arg).toNat (fun _ => 0))
            (initVec (atoi arg).toNat (fun m => 1 / ((m : ℚ) + 1)) (fun _ => 0))
            (fun _ => 0))).sum) := by
  have hNq : ¬ (atoi arg ≤ 0) := by omega
  have ht' : t ≠ 0 := ne_of_gt ht
  refine ⟨?_, ?_, ?_, ?_, ?_, ?_, ?_, ?_, ?_, ?_, ?_, ?_, ?_⟩
  · simp [cMv.main]
  · simp [cMv.main]
  · simp [cMv.main]
  · simp [cMv.main]
  · field_simp
    ring
  · simp only [cMv.main, Option.some_bind]
    exact sampled_checksum_ne_none (atoi arg) hN _
  · simp [hw1.main, hw1.run]
  · simp [hw1.main, hw1.run]
  · simp only [hw1.main, hw1.run, if_pos rfl, Option.some_bind]
    exact sampled_checksum_ne_none (atoi arg) hN _
  · simp [proj1.main, hNq]
  · simp [proj1.main, hNq]
  · simp [proj1.main, hNq]
  · simp [proj1.main, hNq]

/-- Witness for C7 at argument "2", t = 1, zeroed allocations, baseline. -/
theorem C7_success_report_amended_witness :
    0 < atoi "2" ∧ 0 < (1 : ℚ) ∧
    ((cMv.main ["2"] 1 (fun _ => 0) (fun _ => 0) (fun _ => 0)).exitCode = 0 ∧
     Option.map Report.timeValue
       (cMv.main ["2"] 1 (fun _ => 0) (fun _ => 0) (fun _ => 0)).report = some 1 ∧
     Option.map Report.timeUnit
       (cMv.main ["2"] 1 (fun _ => 0) (fun _ => 0) (fun _ => 0)).report = some "us" ∧
     Option.map Report.gflops
       (cMv.main ["2"] 1 (fun _ => 0) (fun _ => 0) (fun _ => 0)).report
       = some (some (2 * (atoi "2" : ℚ) * (atoi "2" : ℚ) * (1 / 1000) / 1)) ∧
     2 * (atoi "2" : ℚ) * (atoi "2" : ℚ) * (1 / 1000) / 1
       = 2 * (atoi "2" : ℚ) ^ 2 * (1 / 1000000000) / (1 / 1000000) ∧
     Option.bind (cMv.main ["2"] 1 (fun _ => 0) (fun _ => 0) (fun _ => 0)).report
       Report.checksum ≠ none ∧
     (hw1.main ["2"] 1).exitCode = 0 ∧
     Option.map Report.gflops (hw1.main ["2"] 1).report
       = some (some (2 * (atoi "2" : ℚ) * (atoi "2" : ℚ) * (1 / 1000) / 1)) ∧
     Option.bind (hw1.main ["2"] 1).report Report.checksum ≠ none ∧
     (proj1.main proj1.Prog.baseline ["2"] 1).exitCode = 0 ∧
     Option.map Report.timeUnit (proj1.main proj1.Prog.baseline ["2"] 1).report
       = some "seconds" ∧
     Option.map Report.gflops (proj1.main proj1.Prog.baseline ["2"] 1).report
       = some none ∧
     Option.bind (proj1.main proj1.Prog.baseline ["2"] 1).report Report.checksum
       = some ((resultVec (atoi "2").toNat
           (proj1.runKernel proj1.Prog.baseline (atoi "2").toNat
             (InitMatrix (atoi "2").toNat (atoi "2").toNat (fun _ => 0))
             (initVec (atoi "2").toNat (fun m => 1 / ((m : ℚ) + 1)) (fun _ => 0))
             (fun _ => 0))).sum)) :=
  ⟨by decide, one_pos,
   C7_success_report_amended "2" 1 (fun _ => 0) (fun _ => 0) (fun _ => 0)
     proj1.Prog.baseline (by decide) one_pos⟩

/-- The result vector of the Mv.c run is independent of the uninitialized
contents of the malloc-ed buffers: InitMatrix fully determines every A and
B cell the kernel reads, and the memset plus MatVecMult fully determine
every C cell the report reads. -/
theorem cMv_result_independent_of_alloc_contents (n : ℕ) (A0 A0' B0 B0' C0 C0' : ℕ → ℚ) :
    resultVec n (cMv.MatVecMult n n (InitMatrix n n A0) (InitMatrix n 1 B0) (zeroFill n C0))
      = resultVec n (cMv.MatVecMult n n (InitMatrix n n A0') (InitMatrix n 1 B0')
          (zeroFill n C0')) := by
  apply resultVec_congr
  intro j hj
  rw [cMv_MatVecMult_apply, cMv_MatVecMult_apply, if_pos hj, if_pos hj]
  apply Finset.sum_congr rfl
  intro k hk
  have hk' : k < n := Finset.mem_range.mp hk
  rw [InitMatrix_apply n A0 n j k hj hk', InitMatrix_apply n A0' n j k hj hk',
    cMv_generated_B_apply n B0 k hk', cMv_generated_B_apply n B0' k hk']

/-- C9: determinism as a two-run property — for any fixed arguments and
variant, two runs with different elapsed times and different uninitialized
buffer contents produce the same checksum (and the same exit code): the
checksum depends only on N and the selected kernel, never on timing or on
memory left uninitialized by the allocator. -/
theorem C9_checksum_deterministic (args : List String) (t t' : ℚ)
    (A0 A0' B0 B0' C0 C0' : ℕ → ℚ) (p : proj1.Prog) :
    Option.map Report.checksum (cMv.main args t A0 B0 C0).report
      = Option.map Report.checksum (cMv.main args t' A0' B0' C0').report ∧
    (cMv.main args t A0 B0 C0).exitCode = (cMv.main args t' A0' B0' C0').exitCode ∧
    Option.map Report.checksum (hw1.main args t).report
      = Option.map Report.checksum (hw1.main args t').report ∧
    Option.map Report.checksum (proj1.main p args t).report
      = Option.map Report.checksum (proj1.main p args t').report := by
  obtain (_ | ⟨a, (_ | ⟨a2, rest⟩)⟩) := args
  · exact ⟨rfl, rfl, rfl, rfl⟩
  · refine ⟨?_, rfl, ?_, ?_⟩
    · simp only [cMv.main, Option.map]
      rw [cMv_result_independent_of_alloc_contents (atoi a).toNat A0 A0' B0 B0' C0 C0']
    · simp [hw1.main, hw1.run]
    · by_cases hN : atoi a ≤ 0
      · simp [proj1.main, hN]
      · simp [proj1.main, hN]
  · refine ⟨rfl, rfl, ?_, rfl⟩
    obtain (_ | ⟨a3, rest2⟩) := rest
    · by_cases h1 : a = "avx2"
      · simp [hw1.main, hw1.run, h1]
      · by_cases h2 : a = "unroll"
        · simp [hw1.main, hw1.run, h1, h2]
        · by_cases h3 : a = "interchange"
          · simp [hw1.main, hw1.run, h1, h2, h3]
          · simp [hw1.main, hw1.run, h1, h2, h3]
    · rfl
